import Mathlib

/-!
Shallow embedding of the elastic-operator core of
`src/models/inception_resnet_v1.py`:

* `SuperConv2D` (the elastic convolution) — Lean structure `ConvState`,
  operations `setSubnetConfig`, `subnetParameters`, `subselectWeight`,
  `subselectBias`, `superConvForward`;
* `SuperSequential` (the elastic sequential container) — structure
  `SuperSequentialState`, operations `setNumLayers`,
  `superSequentialForward`;
* the configuration protocol `set_config` / `get_config` — `setConfig`,
  `getConfig` over `NetState`, which holds the lists returned by the
  deterministic traversals `get_super_ops` / `get_super_sequential_ops`;
* the accounting oracle `calculate_superconv2d_params` —
  `calculateSuperconv2dParams`.

Tensors are modelled as nested lists of rationals.  Python integers are
modelled as `ℤ`; Python's prefix slice `l[:n]` (which clamps to the list
length and treats a negative `n` as counting from the end) is `pySlice`.
-/

/-- 1-dimensional tensor: a list of scalars. -/
abbrev Tensor1 := List ℚ

/-- 2-dimensional tensor. -/
abbrev Tensor2 := List Tensor1

/-- 3-dimensional tensor. -/
abbrev Tensor3 := List Tensor2

/-- 4-dimensional tensor, indexed (out-channel, in-channel, row, col) for
convolution weights and (batch, channel, row, col) for activations. -/
abbrev Tensor4 := List Tensor3

/-- Python's prefix slice `l[:n]` for an arbitrary integer `n`: for
`0 ≤ n` it keeps the first `n` elements (clamped to the length); for
`n < 0` it keeps the first `len + n` elements (clamped below at 0). -/
def pySlice (n : ℤ) (l : List α) : List α :=
  if 0 ≤ n then l.take n.toNat else l.take (l.length - (-n).toNat)

/-- State of a `SuperConv2D` layer (`src/models/inception_resnet_v1.py`,
class `SuperConv2D`).  `weight`/`bias` are the superkernel tensors
allocated by `nn.Conv2d.__init__`; `subnet_*` is the runtime (active)
configuration; `subnet_weight`/`subnet_bias` model the `self.subnet`
dictionary of materialized slices.  `weight_element_size` and
`bias_element_size` record `tensor.element_size()` (bytes per element)
of the two stored tensors. -/
structure ConvState where
  super_in_dim : ℤ
  super_out_dim : ℤ
  super_kernel_size : ℤ
  stride : ℕ × ℕ
  padding : ℕ × ℕ
  weight : Tensor4
  bias : Option Tensor1
  subnet_in_dim : ℤ
  subnet_out_dim : ℤ
  subnet_kernel_size : ℤ
  subnet_weight : Tensor4
  subnet_bias : Option Tensor1
  weight_element_size : ℕ
  bias_element_size : ℕ
  deriving Repr

/-- `SuperConv2D._subselect_weight`: the prefix slice
`weight[:subnet_out_dim, :subnet_in_dim, :subnet_kernel_size, :subnet_kernel_size]`. -/
def subselectWeight (weight : Tensor4) (sub_in sub_out sub_kernel : ℤ) : Tensor4 :=
  (pySlice sub_out weight).map fun plane =>
    (pySlice sub_in plane).map fun mat =>
      (pySlice sub_kernel mat).map fun row => pySlice sub_kernel row

/-- `SuperConv2D._subselect_bias`: the prefix slice `bias[:subnet_out_dim]`. -/
def subselectBias (bias : Tensor1) (sub_out : ℤ) : Tensor1 :=
  pySlice sub_out bias

/-- `SuperConv2D._subnet_parameters`: recompute the materialized weight
slice (and the bias slice when a bias tensor is present) from the current
active configuration.  The `.to("cuda")` device moves are no-ops in the
value model. -/
def subnetParameters (s : ConvState) : ConvState :=
  { s with
    subnet_weight :=
      subselectWeight s.weight s.subnet_in_dim s.subnet_out_dim s.subnet_kernel_size
    subnet_bias :=
      match s.bias with
      | some b => some (subselectBias b s.subnet_out_dim)
      | none => s.subnet_bias }

/-- `SuperConv2D.set_subnet_config`: store each supplied (non-`None`)
field, keep every omitted field, then call `_subnet_parameters`.  The
source performs no bounds validation. -/
def setSubnetConfig (s : ConvState)
    (sub_in sub_out sub_kernel : Option ℤ) : ConvState :=
  subnetParameters
    { s with
      subnet_in_dim := sub_in.getD s.subnet_in_dim
      subnet_out_dim := sub_out.getD s.subnet_out_dim
      subnet_kernel_size := sub_kernel.getD s.subnet_kernel_size }

/-- Scalar read of a 2-dimensional tensor at possibly negative indices:
out-of-range reads give 0, which encodes zero padding of the input. -/
def at2 (m : Tensor2) (i j : ℤ) : ℚ :=
  if 0 ≤ i ∧ 0 ≤ j then (m.getD i.toNat []).getD j.toNat 0 else 0

/-- One scalar entry of `F.conv2d` output (cross-correlation, as PyTorch
computes it): sum over input channels and kernel positions of
`input[b, c, i·sh + p − ph, j·sw + q − pw] · weight[o, c, p, q]`. -/
def conv2dEntry (x w : Tensor4) (sh sw ph pw : ℕ) (b o i j : ℕ) : ℚ :=
  let cIn := (w.getD 0 []).length
  let kh := ((w.getD 0 []).getD 0 []).length
  let kw := (((w.getD 0 []).getD 0 []).getD 0 []).length
  ∑ c ∈ Finset.range cIn, ∑ p ∈ Finset.range kh, ∑ q ∈ Finset.range kw,
    at2 ((x.getD b []).getD c [])
        ((i * sh + p : ℤ) - ph) ((j * sw + q : ℤ) - pw)
      * (((((w.getD o []).getD c []).getD p []).getD q 0))

/-- `torch.nn.functional.conv2d` without a bias argument (dilation 1,
groups 1): output shape (batch, out-channels, outH, outW) with
`outH = (H + 2·ph − kh) / sh + 1` and similarly for `outW`. -/
def conv2d (x w : Tensor4) (stride padding : ℕ × ℕ) : Tensor4 :=
  let sh := stride.1
  let sw := stride.2
  let ph := padding.1
  let pw := padding.2
  let H := ((x.getD 0 []).getD 0 []).length
  let W := (((x.getD 0 []).getD 0 []).getD 0 []).length
  let kh := ((w.getD 0 []).getD 0 []).length
  let kw := (((w.getD 0 []).getD 0 []).getD 0 []).length
  let outH := (H + 2 * ph - kh) / sh + 1
  let outW := (W + 2 * pw - kw) / sw + 1
  (List.range x.length).map fun b =>
    (List.range w.length).map fun o =>
      (List.range outH).map fun i =>
        (List.range outW).map fun j => conv2dEntry x w sh sw ph pw b o i j

/-- `SuperConv2D.forward`: first re-run `_subnet_parameters`, then call
`F.conv2d` with the freshly sliced weight, the stored stride and the
stored padding.  The `bias=self.bias` argument is commented out in the
source, so no bias is passed.  Returns the mutated layer state together
with the convolution output. -/
def superConvForward (s : ConvState) (x : Tensor4) : ConvState × Tensor4 :=
  let s2 := subnetParameters s
  (s2, conv2d x s2.subnet_weight s2.stride s2.padding)

/-- `calculate_superconv2d_params`: active parameter count and memory
footprint (in MiB) of a `SuperConv2D` layer, computed from the runtime
configuration `subnet_*`, not the maximal capacity. -/
def calculateSuperconv2dParams (s : ConvState) : ℤ × ℚ :=
  let weight_params := s.subnet_in_dim * s.subnet_out_dim * s.subnet_kernel_size ^ 2
  let weight_size := weight_params * (s.weight_element_size : ℤ)
  let bias_params : ℤ := if s.bias.isSome then s.subnet_out_dim else 0
  let weight_size :=
    if s.bias.isSome then weight_size + bias_params * (s.bias_element_size : ℤ)
    else weight_size
  let total_params := weight_params + bias_params
  (total_params, (weight_size : ℚ) / (1024 ^ 2 : ℚ))

/-- State of a `SuperSequential` container: the fixed ordered list of
sub-operators (as functions on activations) and the stored
`num_layers`.  `__init__` sets `num_layers = len(self)`. -/
structure SuperSequentialState (α : Type) where
  ops : List (α → α)
  num_layers : ℤ

/-- `SuperSequential.set_num_layers`: stores the argument unconditionally
(the source performs no validation). -/
def setNumLayers (s : SuperSequentialState α) (n : ℤ) : SuperSequentialState α :=
  { s with num_layers := n }

/-- The loop `for i in range(n): x = self[i](x)`: applies the first `n`
operators in order; indexing past the end of the list fails
(Python raises `IndexError`), modelled by `none`. -/
def seqRun : List (α → α) → ℕ → α → Option α
  | _, 0, x => some x
  | [], _ + 1, _ => none
  | f :: fs, n + 1, x => seqRun fs n (f x)

/-- `SuperSequential.forward(x, num_layers=None)`: run the first
`num_layers` sub-operators (the stored `self.num_layers` when the
argument is `None`).  `range(n)` of a negative `n` is empty, hence
`Int.toNat`. -/
def superSequentialForward (s : SuperSequentialState α) (x : α)
    (numLayers : Option ℤ) : Option α :=
  seqRun s.ops (numLayers.getD s.num_layers).toNat x

/-- A network as seen by the configuration protocol: the list of
`SuperConv2D` operators returned by `get_super_ops` (a `named_modules`
traversal) and the list of `SuperSequential` containers returned by
`get_super_sequential_ops` (a `modules` traversal).  Both traversals are
deterministic over a fixed module tree, and `set_config` and
`get_config` call the same discovery functions, so both read the same
lists. -/
structure NetState (α : Type) where
  super_ops : List ConvState
  super_seq_ops : List (SuperSequentialState α)

/-- A global configuration: `config["ks"]` and `config["num_layers"]`. -/
structure NetConfig where
  ks : List ℤ
  num_layers : List ℤ
  deriving Repr, DecidableEq

/-- The loop `for ks, op in zip(config["ks"], super_ops):
op.set_subnet_config(subnet_kernel_size=ks)` — `zip` stops at the
shorter list, later operators stay untouched. -/
def setConfigKs : List ℤ → List ConvState → List ConvState
  | _, [] => []
  | [], ops => ops
  | k :: ks, op :: ops => setSubnetConfig op none none (some k) :: setConfigKs ks ops

/-- The loop `for num_layers, op in zip(config["num_layers"], seq_ops):
op.set_num_layers(num_layers)`. -/
def setConfigNumLayers : List ℤ → List (SuperSequentialState α) →
    List (SuperSequentialState α)
  | _, [] => []
  | [], ops => ops
  | n :: ns, op :: ops => setNumLayers op n :: setConfigNumLayers ns ops

/-- `InceptionResnetV1.set_config`. -/
def setConfig (net : NetState α) (c : NetConfig) : NetState α :=
  { super_ops := setConfigKs c.ks net.super_ops
    super_seq_ops := setConfigNumLayers c.num_layers net.super_seq_ops }

/-- `InceptionResnetV1.get_config`: read `subnet_kernel_size` of every
discovered convolution and `num_layers` of every discovered container,
in traversal order. -/
def getConfig (net : NetState α) : NetConfig :=
  { ks := net.super_ops.map (fun op => op.subnet_kernel_size)
    num_layers := net.super_seq_ops.map (fun op => op.num_layers) }

/-- Shape predicate for a 4-dimensional tensor. -/
def hasShape4 (w : Tensor4) (a b c d : ℕ) : Prop :=
  w.length = a ∧ ∀ p ∈ w, p.length = b ∧ ∀ m ∈ p, m.length = c ∧ ∀ r ∈ m, r.length = d

instance (w : Tensor4) (a b c d : ℕ) : Decidable (hasShape4 w a b c d) := by
  unfold hasShape4; infer_instance

/-- Scalar read of a 4-dimensional tensor (0 when out of range). -/
def get4 (w : Tensor4) (o i p q : ℕ) : ℚ :=
  (((w.getD o []).getD i []).getD p []).getD q 0

/-! ### Helper lemmas -/

theorem pySlice_of_nonneg (n : ℤ) (l : List α) (h : 0 ≤ n) :
    pySlice n l = l.take n.toNat := if_pos h

theorem length_pySlice_of_nonneg (n : ℤ) (l : List α) (h : 0 ≤ n) :
    (pySlice n l).length = min n.toNat l.length := by
  rw [pySlice_of_nonneg n l h, List.length_take]

theorem length_pySlice_of_le (n : ℤ) (l : List α) (h0 : 0 ≤ n)
    (h : n.toNat ≤ l.length) : (pySlice n l).length = n.toNat := by
  rw [length_pySlice_of_nonneg n l h0]; omega

theorem length_pySlice_of_ge (n : ℤ) (l : List α) (h0 : 0 ≤ n)
    (h : l.length ≤ n.toNat) : (pySlice n l).length = l.length := by
  rw [length_pySlice_of_nonneg n l h0]; omega

theorem mem_of_mem_pySlice {n : ℤ} {l : List α} {a : α} (h : a ∈ pySlice n l) :
    a ∈ l := by
  unfold pySlice at h
  by_cases h0 : 0 ≤ n
  · rw [if_pos h0] at h; exact List.take_subset _ _ h
  · rw [if_neg h0] at h; exact List.take_subset _ _ h

theorem getD_take_of_lt (l : List α) (n i : ℕ) (d : α) (h : i < n) :
    (l.take n).getD i d = l.getD i d := by
  simp [List.getD_eq_getElem?_getD, List.getElem?_take_of_lt h]

theorem getD_pySlice_of_lt (n : ℤ) (l : List α) (i : ℕ) (d : α)
    (h0 : 0 ≤ n) (h : i < n.toNat) : (pySlice n l).getD i d = l.getD i d := by
  rw [pySlice_of_nonneg n l h0, getD_take_of_lt l n.toNat i d h]

theorem getD_map_of_lt (l : List α) (f : α → β) (i : ℕ) (db : β) (da : α)
    (h : i < l.length) : (l.map f).getD i db = f (l.getD i da) := by
  simp [List.getD_eq_getElem?_getD, List.getElem?_map,
    List.getElem?_eq_getElem h]

theorem getD_map_pySlice (n : ℤ) (l : List α) (f : α → β) (i : ℕ)
    (db : β) (da : α) (h0 : 0 ≤ n) (hi : i < n.toNat) (hl : i < l.length) :
    ((pySlice n l).map f).getD i db = f (l.getD i da) := by
  have hlen : i < (pySlice n l).length := by
    rw [length_pySlice_of_nonneg n l h0]; omega
  rw [getD_map_of_lt _ f i db da hlen, getD_pySlice_of_lt n l i da h0 hi]

theorem getD_mem (l : List α) (i : ℕ) (d : α) (h : i < l.length) :
    l.getD i d ∈ l := by
  rw [List.getD_eq_getElem?_getD, List.getElem?_eq_getElem h]
  exact List.getElem_mem h

theorem seqRun_zero (ops : List (α → α)) (x : α) : seqRun ops 0 x = some x := by
  cases ops <;> rfl

theorem seqRun_eq_foldl (ops : List (α → α)) (n : ℕ) (x : α)
    (h : n ≤ ops.length) :
    seqRun ops n x = some ((ops.take n).foldl (fun a f => f a) x) := by
  induction ops generalizing n x with
  | nil =>
    have hn : n = 0 := by simpa using h
    subst hn; rfl
  | cons f fs ih =>
    cases n with
    | zero => rfl
    | succ m =>
      simp only [seqRun, List.take_succ_cons, List.foldl_cons]
      exact ih m (f x) (by simpa using h)

theorem seqRun_eq_none_iff (ops : List (α → α)) (n : ℕ) (x : α) :
    seqRun ops n x = none ↔ ops.length < n := by
  induction ops generalizing n x with
  | nil =>
    cases n with
    | zero => simp [seqRun]
    | succ m => simp [seqRun]
  | cons f fs ih =>
    cases n with
    | zero => simp [seqRun]
    | succ m => simpa [seqRun] using ih m (f x)

/-! ### Example container used by concrete witnesses -/

/-- A concrete container of 5 sub-operators over `ℕ`. -/
def exSeqOps : List (ℕ → ℕ) :=
  [fun n => n + 1, fun n => n * 2, fun n => n + 3, fun n => n * 5, fun n => n + 7]

/-- The container state with all 5 layers active (as `__init__` sets it). -/
def exSeq : SuperSequentialState ℕ := ⟨exSeqOps, 5⟩

/-- C5: for an elastic sequential container whose active depth `d` does
not exceed its length, `forward` executes exactly operators `0..d-1` in
order, each output feeding the next (a left fold over the prefix); with
`d = 0` it returns the input unchanged. -/
theorem superSequential_forward_executes_front (α : Type)
    (s : SuperSequentialState α) (x : α)
    (h : s.num_layers.toNat ≤ s.ops.length) :
    superSequentialForward s x none =
        some ((s.ops.take s.num_layers.toNat).foldl (fun a f => f a) x)
      ∧ (s.num_layers = 0 → superSequentialForward s x none = some x) := by
  constructor
  · exact seqRun_eq_foldl s.ops s.num_layers.toNat x h
  · intro h0
    show seqRun s.ops s.num_layers.toNat x = some x
    rw [h0]
    exact seqRun_zero s.ops x

/-- Witness for C5: the 5-operator container with active depth 2 applied
to 1 computes `op1 (op0 1) = (1 + 1) * 2 = 4`. -/
theorem superSequential_forward_executes_front_witness :
    (⟨exSeqOps, 2⟩ : SuperSequentialState ℕ).num_layers.toNat ≤
        (⟨exSeqOps, 2⟩ : SuperSequentialState ℕ).ops.length
      ∧ superSequentialForward (⟨exSeqOps, 2⟩ : SuperSequentialState ℕ) 1 none =
        some 4 :=
  ⟨by decide,
   ((superSequential_forward_executes_front ℕ ⟨exSeqOps, 2⟩ 1 (by decide)).1).trans
     (by decide)⟩

/-- Counterexample for C6: `set_num_layers (-1)` violates the claimed
precondition `0 ≤ n`, yet it does not fail: the container state is
updated to `num_layers = -1`, and a subsequent `forward` still succeeds
(returning the input unchanged). -/
theorem setNumLayers_negative_succeeds_cx :
    (setNumLayers exSeq (-1)).num_layers = -1
      ∧ superSequentialForward (setNumLayers exSeq (-1)) 1 none = some 1 :=
  ⟨rfl, by decide⟩

/-- C6 (amended): `set_num_layers` performs no validation — it stores
any integer `n` unconditionally and never fails; a violation surfaces
only in a later `forward`: a negative stored depth acts as depth 0
(identity) and a stored depth exceeding the length makes `forward`
fail. -/
theorem setNumLayers_no_validation (α : Type)
    (s : SuperSequentialState α) (n : ℤ) (x : α) :
    (setNumLayers s n).num_layers = n
      ∧ (setNumLayers s n).ops = s.ops
      ∧ (n < 0 → superSequentialForward (setNumLayers s n) x none = some x)
      ∧ (s.ops.length < n.toNat →
          superSequentialForward (setNumLayers s n) x none = none) := by
  refine ⟨rfl, rfl, ?_, ?_⟩
  · intro hneg
    show seqRun s.ops n.toNat x = some x
    rw [Int.toNat_of_nonpos (le_of_lt hneg)]
    exact seqRun_zero s.ops x
  · intro hgt
    show seqRun s.ops n.toNat x = none
    exact (seqRun_eq_none_iff s.ops n.toNat x).mpr hgt

/-- Witness for the amended C6 at a concrete container: storing depth 7
(> 5) makes the subsequent `forward` fail. -/
theorem setNumLayers_no_validation_witness :
    exSeq.ops.length < (7 : ℤ).toNat
      ∧ superSequentialForward (setNumLayers exSeq 7) 3 none = none :=
  ⟨by decide, (setNumLayers_no_validation ℕ exSeq 7 3).2.2.2 (by decide)⟩

/-- C10: `set_num_layers` with a negative integer succeeds and makes a
subsequent `forward` return the input unchanged (the loop
`for i in range(n)` is empty for `n < 0`); `forward` fails exactly when
the stored active depth exceeds the container's length. -/
theorem setNumLayers_negative_then_forward_identity (α : Type)
    (s : SuperSequentialState α) (x : α) :
    (∀ n : ℤ, n < 0 →
        superSequentialForward (setNumLayers s n) x none = some x)
      ∧ (superSequentialForward s x none = none ↔
          s.ops.length < s.num_layers.toNat) := by
  constructor
  · intro n hneg
    show seqRun s.ops n.toNat x = some x
    rw [Int.toNat_of_nonpos (le_of_lt hneg)]
    exact seqRun_zero s.ops x
  · exact seqRun_eq_none_iff s.ops s.num_layers.toNat x

/-! ### Example convolution states used by concrete witnesses -/

/-- A concrete 2×2×2×2 superkernel weight. -/
def exWeight : Tensor4 :=
  [[[[1, 2], [3, 4]], [[5, 6], [7, 8]]],
   [[[9, 10], [11, 12]], [[13, 14], [15, 16]]]]

/-- A concrete `SuperConv2D` state with maxima (2, 2, 2) and a bias,
fully active, with the slices materialized as the constructor leaves
them. -/
def exConv : ConvState :=
  setSubnetConfig
    { super_in_dim := 2, super_out_dim := 2, super_kernel_size := 2
      stride := (1, 1), padding := (1, 1)
      weight := exWeight, bias := some [100, 200]
      subnet_in_dim := 2, subnet_out_dim := 2, subnet_kernel_size := 2
      subnet_weight := [], subnet_bias := none
      weight_element_size := 4, bias_element_size := 4 }
    (some 2) (some 2) (some 2)

/-- The spec's concrete accounting example: maxima (32, 32, 3), no
bias, fully active (as `__init__` leaves it, via `set_subnet_config`
at the maxima). -/
def exConv32 : ConvState :=
  setSubnetConfig
    { super_in_dim := 32, super_out_dim := 32, super_kernel_size := 3
      stride := (1, 1), padding := (1, 1)
      weight := List.replicate 32 (List.replicate 32
        (List.replicate 3 (List.replicate 3 (1 : ℚ))))
      bias := none
      subnet_in_dim := 32, subnet_out_dim := 32, subnet_kernel_size := 3
      subnet_weight := [], subnet_bias := none
      weight_element_size := 4, bias_element_size := 4 }
    (some 32) (some 32) (some 3)

/-- C7: `set_subnet_config` updates exactly the supplied configuration
fields (keeping every omitted one), leaves the superkernel tensors and
all other fields untouched, and recomputes the materialized weight
slice — and the bias slice when a bias is present — at the *new*
configuration before returning. -/
theorem setSubnetConfig_updates_supplied_fields (s : ConvState)
    (sub_in sub_out sub_kernel : Option ℤ) :
    ((setSubnetConfig s sub_in sub_out sub_kernel).subnet_in_dim,
     (setSubnetConfig s sub_in sub_out sub_kernel).subnet_out_dim,
     (setSubnetConfig s sub_in sub_out sub_kernel).subnet_kernel_size) =
      (sub_in.getD s.subnet_in_dim, sub_out.getD s.subnet_out_dim,
       sub_kernel.getD s.subnet_kernel_size)
    ∧ ((setSubnetConfig s sub_in sub_out sub_kernel).weight,
       (setSubnetConfig s sub_in sub_out sub_kernel).bias,
       (setSubnetConfig s sub_in sub_out sub_kernel).super_in_dim,
       (setSubnetConfig s sub_in sub_out sub_kernel).super_out_dim,
       (setSubnetConfig s sub_in sub_out sub_kernel).super_kernel_size,
       (setSubnetConfig s sub_in sub_out sub_kernel).stride,
       (setSubnetConfig s sub_in sub_out sub_kernel).padding) =
      (s.weight, s.bias, s.super_in_dim, s.super_out_dim,
       s.super_kernel_size, s.stride, s.padding)
    ∧ (setSubnetConfig s sub_in sub_out sub_kernel).subnet_weight =
        subselectWeight s.weight (sub_in.getD s.subnet_in_dim)
          (sub_out.getD s.subnet_out_dim) (sub_kernel.getD s.subnet_kernel_size)
    ∧ (∀ b, s.bias = some b →
        (setSubnetConfig s sub_in sub_out sub_kernel).subnet_bias =
          some (subselectBias b (sub_out.getD s.subnet_out_dim))) := by
  refine ⟨rfl, rfl, rfl, ?_⟩
  intro b hb
  simp [setSubnetConfig, subnetParameters, hb]

/-- Witness for C7: on the concrete biased operator, supplying only
`subnet_out_dim = 1` recomputes the bias slice `bias[:1]` immediately. -/
theorem setSubnetConfig_updates_supplied_fields_witness :
    exConv.bias = some [100, 200]
      ∧ (setSubnetConfig exConv none (some 1) none).subnet_bias =
          some (subselectBias [100, 200] ((some (1 : ℤ)).getD exConv.subnet_out_dim)) :=
  ⟨rfl,
   (setSubnetConfig_updates_supplied_fields exConv none (some 1) none).2.2.2
     [100, 200] rfl⟩

/-- C9: `SuperConv2D.forward` computes the convolution from the freshly
sliced active weight, the stored stride and the stored padding only;
the bias tensor is never added (the output is unchanged under any
modification of the bias field), and any stale materialized slices are
ignored because the slice is recomputed. -/
theorem superConvForward_ignores_bias (s : ConvState) (x : Tensor4) :
    (superConvForward s x).2 =
        conv2d x (subselectWeight s.weight s.subnet_in_dim s.subnet_out_dim
          s.subnet_kernel_size) s.stride s.padding
      ∧ (∀ b : Option Tensor1,
          (superConvForward { s with bias := b } x).2 = (superConvForward s x).2)
      ∧ (∀ (jw : Tensor4) (jb : Option Tensor1),
          (superConvForward { s with subnet_weight := jw, subnet_bias := jb } x).2 =
            (superConvForward s x).2) :=
  ⟨rfl, fun _ => rfl, fun _ _ => rfl⟩

/-- Counterexample for C1: on the concrete operator with
`super_out_dim = 2`, calling `set_subnet_config` with
`subnet_out_dim = 3 > 2` raises no error — it stores 3 as the active
configuration (so the previous configuration does *not* remain
unchanged) and the rematerialized weight slice is silently clamped to
the superkernel's actual extent 2. -/
theorem setSubnetConfig_oversize_accepted_cx :
    (setSubnetConfig exConv none (some 3) none).subnet_out_dim = 3
      ∧ exConv.subnet_out_dim = 2
      ∧ (setSubnetConfig exConv none (some 3) none).subnet_weight.length = 2 :=
  ⟨rfl, rfl, by decide⟩

/-- C1 (amended): `set_subnet_config` performs no bounds validation:
an `active_out` exceeding the superkernel's extent is accepted and
stored as the active configuration, and the recomputed weight slice is
silently clamped to the superkernel's actual extent (Python slice
semantics). -/
theorem setSubnetConfig_oversize_clamps (s : ConvState) (v : ℤ)
    (h0 : 0 ≤ v) (h : s.weight.length ≤ v.toNat) :
    (setSubnetConfig s none (some v) none).subnet_out_dim = v
      ∧ (setSubnetConfig s none (some v) none).subnet_weight.length =
          s.weight.length := by
  constructor
  · rfl
  · show (subselectWeight s.weight _ v _).length = s.weight.length
    simp only [subselectWeight, List.length_map]
    exact length_pySlice_of_ge v s.weight h0 h

/-- Witness for the amended C1 at the concrete operator: `out = 3`
exceeds the extent 2, is stored, and the slice keeps extent 2. -/
theorem setSubnetConfig_oversize_clamps_witness :
    (0 : ℤ) ≤ 3 ∧ exConv.weight.length ≤ (3 : ℤ).toNat
      ∧ (setSubnetConfig exConv none (some 3) none).subnet_weight.length =
          exConv.weight.length :=
  ⟨by decide, by decide,
   (setSubnetConfig_oversize_clamps exConv 3 (by decide) (by decide)).2⟩

/-- C4: the accounting oracle reports
`active_in · active_out · active_kernel² (+ active_out if a bias is
present)` parameters, computed from the current active configuration
(it is invariant under changes to the maximal capacity fields), and a
memory footprint of `total_params · element_size / 1024²` mebibytes
when both tensors share one element byte width; on the spec's concrete
32×32 bias-free operator, `kernel = 1` gives 1024 parameters and
`kernel = 3` gives 9216. -/
theorem calculateSuperconv2dParams_active_config (s : ConvState) (e : ℕ)
    (hw : s.weight_element_size = e) (hb : s.bias_element_size = e) :
    (calculateSuperconv2dParams s).1 =
        s.subnet_in_dim * s.subnet_out_dim * s.subnet_kernel_size ^ 2
          + (if s.bias.isSome then s.subnet_out_dim else 0)
      ∧ (calculateSuperconv2dParams s).2 =
          ((calculateSuperconv2dParams s).1 : ℚ) * (e : ℚ) / (1024 ^ 2 : ℚ)
      ∧ (∀ mi mo mk : ℤ, calculateSuperconv2dParams
            { s with super_in_dim := mi, super_out_dim := mo,
                     super_kernel_size := mk } = calculateSuperconv2dParams s)
      ∧ (calculateSuperconv2dParams (setSubnetConfig exConv32 none none (some 1))).1
          = 1024
      ∧ (calculateSuperconv2dParams (setSubnetConfig exConv32 none none (some 3))).1
          = 9216 := by
  refine ⟨rfl, ?_, fun _ _ _ => rfl, by decide, by decide⟩
  show ((if s.bias.isSome then _ else _ : ℤ) : ℚ) / _ = _
  by_cases hbias : s.bias.isSome <;>
    simp only [calculateSuperconv2dParams, hbias, if_true, if_false, hw, hb] <;>
    push_cast <;> ring

/-- Witness for C4 at the concrete biased operator (element size 4):
the footprint equation holds with 18 active parameters. -/
theorem calculateSuperconv2dParams_active_config_witness :
    exConv.weight_element_size = 4 ∧ exConv.bias_element_size = 4
      ∧ (calculateSuperconv2dParams exConv).2 =
          ((calculateSuperconv2dParams exConv).1 : ℚ) * (4 : ℚ) / (1024 ^ 2 : ℚ) :=
  ⟨rfl, rfl, (calculateSuperconv2dParams_active_config exConv 4 rfl rfl).2.1⟩

/-- C2: for a valid active configuration on a superkernel of shape
(max_out, max_in, max_kernel, max_kernel), the materialized active
weight is the prefix slice anchored at index 0 on every axis: it has
shape (active_out, active_in, active_kernel, active_kernel) and each of
its entries equals the superkernel entry at the *same* index (not a
centered offset); the active bias is the prefix `bias[:active_out]`. -/
theorem subselectWeight_prefix_slice (w : Tensor4) (b : Tensor1)
    (max_out max_in max_k : ℕ) (a_in a_out a_k : ℤ)
    (hw : hasShape4 w max_out max_in max_k max_k)
    (hb : b.length = max_out)
    (hin0 : 0 < a_in) (hin : a_in.toNat ≤ max_in)
    (hout0 : 0 < a_out) (hout : a_out.toNat ≤ max_out)
    (hk0 : 0 < a_k) (hk : a_k.toNat ≤ max_k) :
    hasShape4 (subselectWeight w a_in a_out a_k)
        a_out.toNat a_in.toNat a_k.toNat a_k.toNat
      ∧ (∀ o i p q, o < a_out.toNat → i < a_in.toNat →
          p < a_k.toNat → q < a_k.toNat →
          get4 (subselectWeight w a_in a_out a_k) o i p q = get4 w o i p q)
      ∧ (subselectBias b a_out).length = a_out.toNat
      ∧ (∀ o, o < a_out.toNat →
          (subselectBias b a_out).getD o 0 = b.getD o 0) := by
  have hwlen : w.length = max_out := hw.1
  refine ⟨⟨?_, ?_⟩, ?_, ?_, ?_⟩
  · simp only [subselectWeight, List.length_map]
    exact length_pySlice_of_le a_out w (le_of_lt hout0) (by rw [hwlen]; exact hout)
  · intro plane' hplane'
    simp only [subselectWeight, List.mem_map] at hplane'
    obtain ⟨plane, hpl, rfl⟩ := hplane'
    have hplane_mem : plane ∈ w := mem_of_mem_pySlice hpl
    have hplane_len : plane.length = max_in := (hw.2 plane hplane_mem).1
    constructor
    · simp only [List.length_map]
      exact length_pySlice_of_le a_in plane (le_of_lt hin0)
        (by rw [hplane_len]; exact hin)
    · intro mat' hmat'
      simp only [List.mem_map] at hmat'
      obtain ⟨mat, hm, rfl⟩ := hmat'
      have hmat_mem : mat ∈ plane := mem_of_mem_pySlice hm
      have hmat_len : mat.length = max_k := ((hw.2 plane hplane_mem).2 mat hmat_mem).1
      constructor
      · simp only [List.length_map]
        exact length_pySlice_of_le a_k mat (le_of_lt hk0)
          (by rw [hmat_len]; exact hk)
      · intro row' hrow'
        simp only [List.mem_map] at hrow'
        obtain ⟨row, hr, rfl⟩ := hrow'
        have hrow_mem : row ∈ mat := mem_of_mem_pySlice hr
        have hrow_len : row.length = max_k :=
          ((hw.2 plane hplane_mem).2 mat hmat_mem).2 row hrow_mem
        exact length_pySlice_of_le a_k row (le_of_lt hk0)
          (by rw [hrow_len]; exact hk)
  · intro o i p q ho hi hp hq
    have how : o < w.length := by rw [hwlen]; omega
    have hplane_len : (w.getD o []).length = max_in :=
      (hw.2 _ (getD_mem w o [] how)).1
    have hmat_in : i < (w.getD o []).length := by rw [hplane_len]; omega
    have hmat_len : ((w.getD o []).getD i []).length = max_k :=
      ((hw.2 _ (getD_mem w o [] how)).2 _ (getD_mem _ i [] hmat_in)).1
    have hrow_in : p < ((w.getD o []).getD i []).length := by rw [hmat_len]; omega
    simp only [subselectWeight, get4]
    rw [getD_map_pySlice a_out w _ o [] [] (le_of_lt hout0) ho how]
    rw [getD_map_pySlice a_in _ _ i [] [] (le_of_lt hin0) hi hmat_in]
    rw [getD_map_pySlice a_k _ _ p [] [] (le_of_lt hk0) hp hrow_in]
    rw [getD_pySlice_of_lt a_k _ q 0 (le_of_lt hk0) hq]
  · exact length_pySlice_of_le a_out b (le_of_lt hout0) (by rw [hb]; exact hout)
  · intro o ho
    exact getD_pySlice_of_lt a_out b o 0 (le_of_lt hout0) ho

/-- Witness for C2 at the concrete 2×2×2×2 superkernel with active
configuration (in = 1, out = 2, kernel = 1): the slice has shape
(2, 1, 1, 1) and keeps the index-0-anchored entries. -/
theorem subselectWeight_prefix_slice_witness :
    hasShape4 exWeight 2 2 2 2 ∧ ([100, 200] : Tensor1).length = 2
      ∧ hasShape4 (subselectWeight exWeight 1 2 1)
          (Int.toNat 2) (Int.toNat 1) (Int.toNat 1) (Int.toNat 1)
      ∧ get4 (subselectWeight exWeight 1 2 1) 0 0 0 0 = get4 exWeight 0 0 0 0 :=
  ⟨by decide, by decide,
   (subselectWeight_prefix_slice exWeight [100, 200] 2 2 2 1 2 1 (by decide)
      (by decide) (by decide) (by decide) (by decide) (by decide) (by decide)
      (by decide)).1,
   (subselectWeight_prefix_slice exWeight [100, 200] 2 2 2 1 2 1 (by decide)
      (by decide) (by decide) (by decide) (by decide) (by decide) (by decide)
      (by decide)).2.1 0 0 0 0 (by decide) (by decide) (by decide) (by decide)⟩

/-! ### Configuration-protocol lemmas -/

theorem setConfigKs_length : ∀ (ks : List ℤ) (ops : List ConvState),
    (setConfigKs ks ops).length = ops.length
  | [], [] => rfl
  | [], _ :: _ => rfl
  | _ :: _, [] => rfl
  | _ :: ks, _ :: ops => by
    simp only [setConfigKs, List.length_cons, setConfigKs_length ks ops]

theorem setConfigNumLayers_length :
    ∀ (ns : List ℤ) (seqs : List (SuperSequentialState α)),
    (setConfigNumLayers ns seqs).length = seqs.length
  | [], [] => rfl
  | [], _ :: _ => rfl
  | _ :: _, [] => rfl
  | _ :: ns, _ :: seqs => by
    simp only [setConfigNumLayers, List.length_cons,
      setConfigNumLayers_length ns seqs]

theorem map_kernel_setConfigKs : ∀ (ks : List ℤ) (ops : List ConvState),
    ks.length = ops.length →
    (setConfigKs ks ops).map (fun op => op.subnet_kernel_size) = ks
  | [], [], _ => rfl
  | [], _ :: _, h => by simp at h
  | _ :: _, [], h => by simp at h
  | k :: ks, op :: ops, h => by
    simp only [setConfigKs, List.map_cons]
    rw [map_kernel_setConfigKs ks ops (by simpa using h)]
    rfl

theorem map_numLayers_setConfigNumLayers :
    ∀ (ns : List ℤ) (seqs : List (SuperSequentialState α)),
    ns.length = seqs.length →
    (setConfigNumLayers ns seqs).map (fun op => op.num_layers) = ns
  | [], [], _ => rfl
  | [], _ :: _, h => by simp at h
  | _ :: _, [], h => by simp at h
  | n :: ns, sq :: seqs, h => by
    simp only [setConfigNumLayers, List.map_cons]
    rw [map_numLayers_setConfigNumLayers ns seqs (by simpa using h)]
    rfl

theorem setConfigKs_getElem?_paired :
    ∀ (ks : List ℤ) (ops : List ConvState) (i : ℕ) (k : ℤ) (op : ConvState),
    ks[i]? = some k → ops[i]? = some op →
    (setConfigKs ks ops)[i]? = some (setSubnetConfig op none none (some k))
  | [], _, i, _, _, hk, _ => by simp at hk
  | _ :: _, [], i, _, _, _, hop => by simp at hop
  | k :: ks, op :: ops, 0, _, _, hk, hop => by
    simp only [List.getElem?_cons_zero, Option.some.injEq] at hk hop
    subst hk; subst hop
    simp [setConfigKs]
  | k :: ks, op :: ops, i + 1, k', op', hk, hop => by
    simp only [List.getElem?_cons_succ] at hk hop
    simpa only [setConfigKs, List.getElem?_cons_succ] using
      setConfigKs_getElem?_paired ks ops i k' op' hk hop

theorem setConfigKs_getElem?_unpaired :
    ∀ (ks : List ℤ) (ops : List ConvState) (i : ℕ) (op : ConvState),
    ks.length ≤ i → ops[i]? = some op → (setConfigKs ks ops)[i]? = some op
  | _, [], i, _, _, hop => by simp at hop
  | [], op :: ops, i, _, _, hop => hop
  | k :: ks, op :: ops, 0, _, hlen, _ => by simp at hlen
  | k :: ks, op :: ops, i + 1, op', hlen, hop => by
    simp only [List.getElem?_cons_succ] at hop
    simpa only [setConfigKs, List.getElem?_cons_succ] using
      setConfigKs_getElem?_unpaired ks ops i op' (by simpa using hlen) hop

theorem setConfigNumLayers_getElem?_paired :
    ∀ (ns : List ℤ) (seqs : List (SuperSequentialState α)) (i : ℕ) (n : ℤ)
      (sq : SuperSequentialState α),
    ns[i]? = some n → seqs[i]? = some sq →
    (setConfigNumLayers ns seqs)[i]? = some (setNumLayers sq n)
  | [], _, i, _, _, hn, _ => by simp at hn
  | _ :: _, [], i, _, _, _, hsq => by simp at hsq
  | n :: ns, sq :: seqs, 0, _, _, hn, hsq => by
    simp only [List.getElem?_cons_zero, Option.some.injEq] at hn hsq
    subst hn; subst hsq
    simp [setConfigNumLayers]
  | n :: ns, sq :: seqs, i + 1, n', sq', hn, hsq => by
    simp only [List.getElem?_cons_succ] at hn hsq
    simpa only [setConfigNumLayers, List.getElem?_cons_succ] using
      setConfigNumLayers_getElem?_paired ns seqs i n' sq' hn hsq

theorem setConfigNumLayers_getElem?_unpaired :
    ∀ (ns : List ℤ) (seqs : List (SuperSequentialState α)) (i : ℕ)
      (sq : SuperSequentialState α),
    ns.length ≤ i → seqs[i]? = some sq →
    (setConfigNumLayers ns seqs)[i]? = some sq
  | _, [], i, _, _, hsq => by simp at hsq
  | [], sq :: seqs, i, _, _, hsq => hsq
  | n :: ns, sq :: seqs, 0, _, hlen, _ => by simp at hlen
  | n :: ns, sq :: seqs, i + 1, sq', hlen, hsq => by
    simp only [List.getElem?_cons_succ] at hsq
    simpa only [setConfigNumLayers, List.getElem?_cons_succ] using
      setConfigNumLayers_getElem?_unpaired ns seqs i sq' (by simpa using hlen) hsq

/-- A concrete network state for the protocol witnesses: two discovered
elastic convolutions and one discovered elastic container (in the order
the deterministic `named_modules` / `modules` traversals return them). -/
def exNet : NetState ℕ := ⟨[exConv, exConv], [exSeq]⟩

/-- A configuration whose list lengths match `exNet`'s operator counts. -/
def exNetConfig : NetConfig := ⟨[1, 2], [3]⟩

/-- A configuration with fewer kernel sizes (1 < 2) and more stage
depths (2 > 1) than `exNet` has operators. -/
def exShortConfig : NetConfig := ⟨[7], [4, 5]⟩

/-- C3: applying a global configuration whose kernel-size list and
stage-depth list lengths equal the discovered-operator counts and then
reading the configuration back returns exactly the applied lists.
`set_config` and `get_config` both obtain the operator lists from the
same discovery functions (`get_super_ops` / `get_super_sequential_ops`,
deterministic traversals of a fixed module tree), which the `NetState`
fields embed, so both sides see the same traversal order. -/
theorem setConfig_getConfig_roundtrip (α : Type) (net : NetState α)
    (c : NetConfig)
    (hks : c.ks.length = net.super_ops.length)
    (hnl : c.num_layers.length = net.super_seq_ops.length) :
    getConfig (setConfig net c) = c := by
  obtain ⟨ks, ns⟩ := c
  simp only [getConfig, setConfig]
  rw [map_kernel_setConfigKs ks net.super_ops hks,
    map_numLayers_setConfigNumLayers ns net.super_seq_ops hnl]

/-- Witness for C3 at the concrete network: applying ⟨[1, 2], [3]⟩ and
reading back returns ⟨[1, 2], [3]⟩. -/
theorem setConfig_getConfig_roundtrip_witness :
    exNetConfig.ks.length = exNet.super_ops.length
      ∧ exNetConfig.num_layers.length = exNet.super_seq_ops.length
      ∧ getConfig (setConfig exNet exNetConfig) = exNetConfig :=
  ⟨rfl, rfl, setConfig_getConfig_roundtrip ℕ exNet exNetConfig rfl rfl⟩

/-- C8: `set_config` pairs configuration values with discovered
operators positionally via `zip`, which stops at the shorter list: no
error is raised, excess configuration values are silently dropped
(the operator list keeps its length), every paired operator is updated,
and every unpaired operator keeps its previous state. -/
theorem setConfig_truncates_positionally (α : Type) (net : NetState α)
    (c : NetConfig) :
    (setConfig net c).super_ops.length = net.super_ops.length
      ∧ (∀ (i : ℕ) (k : ℤ) (op : ConvState),
          c.ks[i]? = some k → net.super_ops[i]? = some op →
          (setConfig net c).super_ops[i]? =
            some (setSubnetConfig op none none (some k)))
      ∧ (∀ (i : ℕ) (op : ConvState),
          c.ks.length ≤ i → net.super_ops[i]? = some op →
          (setConfig net c).super_ops[i]? = some op)
      ∧ (setConfig net c).super_seq_ops.length = net.super_seq_ops.length
      ∧ (∀ (i : ℕ) (n : ℤ) (sq : SuperSequentialState α),
          c.num_layers[i]? = some n →
          net.super_seq_ops[i]? = some sq →
          (setConfig net c).super_seq_ops[i]? = some (setNumLayers sq n))
      ∧ (∀ (i : ℕ) (sq : SuperSequentialState α),
          c.num_layers.length ≤ i → net.super_seq_ops[i]? = some sq →
          (setConfig net c).super_seq_ops[i]? = some sq) :=
  ⟨setConfigKs_length c.ks net.super_ops,
   fun i k op hk hop => setConfigKs_getElem?_paired c.ks net.super_ops i k op hk hop,
   fun i op hlen hop => setConfigKs_getElem?_unpaired c.ks net.super_ops i op hlen hop,
   setConfigNumLayers_length c.num_layers net.super_seq_ops,
   fun i n sq hn hsq =>
     setConfigNumLayers_getElem?_paired c.num_layers net.super_seq_ops i n sq hn hsq,
   fun i sq hlen hsq =>
     setConfigNumLayers_getElem?_unpaired c.num_layers net.super_seq_ops i sq hlen hsq⟩

/-- Witness for C8 at the concrete network: with one kernel size for
two convolutions, the second (unpaired) convolution is returned
unchanged, and with two stage depths for one container the excess depth
is dropped (the container list keeps length 1). -/
theorem setConfig_truncates_positionally_witness :
    exShortConfig.ks.length ≤ 1
      ∧ exNet.super_ops[1]? = some exConv
      ∧ (setConfig exNet exShortConfig).super_ops[1]? = some exConv
      ∧ (setConfig exNet exShortConfig).super_seq_ops.length =
          exNet.super_seq_ops.length :=
  ⟨by decide, rfl,
   (setConfig_truncates_positionally ℕ exNet exShortConfig).2.2.1 1 exConv
     (by decide) rfl,
   (setConfig_truncates_positionally ℕ exNet exShortConfig).2.2.2.1⟩

/-- Witness for C10 at the concrete container: depth −2 is stored
without error and `forward` returns the input unchanged. -/
theorem setNumLayers_negative_then_forward_identity_witness :
    (-2 : ℤ) < 0
      ∧ superSequentialForward (setNumLayers exSeq (-2)) 9 none = some 9 :=
  ⟨by decide,
   (setNumLayers_negative_then_forward_identity ℕ exSeq 9).1 (-2) (by decide)⟩
